import Mathlib

/-!
# Verification of the mario SSH tunnel manager

This file embeds the core data model and operations of the mario
repository (an SSH port-forwarding tunnel supervisor written in Go)
into Lean 4 and proves, or refutes, the specification claims about it.

The authoritative source files are `pkg/ssh/tunnel.go` (the bitmask
status variant, whose constants are `StatusNew = 0`,
`StatusConnecting = 1`, `StatusRunning = 1<<15`,
`StatusConnected = StatusRunning|1<<2`,
`StatusReconnecting = StatusRunning|1<<3`,
`StatusClosed = StatusRunning|1<<4`, `StatusError = 1<<16`,
`StatusRemoved = 1<<17`) and `internal/manage.go` (the fleet).

External effects (SSH dial, TCP listen/accept, file reads, key parsing)
are modelled as oracle inputs: an `Option GoError` that is `some e`
exactly when the corresponding Go call returns a non-nil error.
-/

namespace Mario

/-- Errors of the Go code; distinct constructors for the named sentinel
errors and for errors produced by external calls. -/
inductive GoError where
  | errInvalidLocalAddr
  | errAnonymous
  | errMissedPort
  | errRemoteLost
  | nilTunnel
  | atoiErr
  | dialErr (n : Nat)
  | listenErr (n : Nat)
  | acceptErr (n : Nat)
  | readErr (n : Nat)
  | parseErr (n : Nat)
  deriving DecidableEq, Repr

/-! ## Status bitmask (`pkg/ssh/tunnel.go`, `const` block) -/

/-- `StatusNew = TunnelStatus(iota)` : tunnel is new. -/
def StatusNew : Nat := 0

/-- `StatusConnecting` : connecting to remote. -/
def StatusConnecting : Nat := 1

/-- `StatusRunning = TunnelStatus(1 << 15)` : the tunnel work task is up. -/
def StatusRunning : Nat := 2 ^ 15

/-- `StatusConnected = StatusRunning | 1<<2`. -/
def StatusConnected : Nat := StatusRunning ||| 2 ^ 2

/-- `StatusReconnecting = StatusRunning | 1<<3`. -/
def StatusReconnecting : Nat := StatusRunning ||| 2 ^ 3

/-- `StatusClosed = StatusRunning | 1<<4`. -/
def StatusClosed : Nat := StatusRunning ||| 2 ^ 4

/-- `StatusError = TunnelStatus(1 << 16)`. -/
def StatusError : Nat := 2 ^ 16

/-- `StatusRemoved = TunnelStatus(1 << 17)`. -/
def StatusRemoved : Nat := 2 ^ 17

/-! ## Connector and tunnel runtime state -/

/-- A connector; the claims only need its btree key `counter`
(`Connector.Less` compares `counter`). -/
structure Connector where
  counter : Nat
  deriving DecidableEq, Repr

/-- The mutable runtime state of a tunnel that the claims refer to:
the status bitmask, the stored `err`, whether `listener` and
`sshClient` are non-nil, the connector btree (modelled as a list kept
in ascending `counter` order, which is the btree's `Ascend` order),
and the connector counter `cCount`. -/
structure TunnelState where
  status : Nat
  err : Option GoError
  hasListener : Bool
  hasClient : Bool
  connectors : List Connector
  cCount : Nat
  deriving DecidableEq, Repr

/-- The state of a tunnel fresh out of `NewTunnel`:
`status: StatusNew`, empty btree, nil listener and client. -/
def initTunnel : TunnelState :=
  { status := StatusNew, err := none, hasListener := false,
    hasClient := false, connectors := [], cCount := 0 }

/-- `setStatusError` (tunnel.go): if `err != nil`, OR the error bit
into `st` and store `err`; then assign `t.status = st`. -/
def setStatusError (t : TunnelState) (st : Nat) (err : Option GoError) :
    TunnelState :=
  match err with
  | some e => { t with status := st ||| StatusError, err := some e }
  | none => { t with status := st }

/-- `closed()` : `t.Status()&StatusClosed == StatusClosed`. -/
def isClosed (t : TunnelState) : Bool :=
  t.status &&& StatusClosed == StatusClosed

/-- `running()` : `t.Status()&StatusRunning == StatusRunning`. -/
def isRunning (t : TunnelState) : Bool :=
  t.status &&& StatusRunning == StatusRunning

/-- `Error()` (tunnel.go): return `t.err` iff the `StatusError` bit is
set in the current status; otherwise nil, even if `t.err` still holds
a stale error object. -/
def tunnelError (t : TunnelState) : Option GoError :=
  if t.status &&& StatusError == StatusError then t.err else none

/-! ## forceConnect -/

/-- Results of the external network calls made by `forceConnect`:
`dial` is the error of `sh.Dial("tcp", t.SSHUri, t.sshConfig)` and
`listen` the error of `net.Listen("tcp", t.Local)` (`none` = success). -/
structure NetOracle where
  dial : Option GoError
  listen : Option GoError
  deriving DecidableEq, Repr

/-- `forceConnect` (tunnel.go): close the old client if any, dial SSH
(returning the error on failure with no status change), then, only if
there is no listener or the tunnel is closed, set `StatusConnecting`
and bind a listener (returning the bind error on failure), and finally
set `StatusConnected`. Returns the updated state and the Go error. -/
def forceConnect (t : TunnelState) (net : NetOracle) :
    TunnelState × Option GoError :=
  match net.dial with
  | some e => (t, some e)
  | none =>
    let t1 := { t with hasClient := true }
    if !t1.hasListener || isClosed t1 then
      let t2 := setStatusError t1 StatusConnecting none
      match net.listen with
      | some e => (t2, some e)
      | none =>
        let t3 := { t2 with hasListener := true }
        (setStatusError t3 StatusConnected none, none)
    else
      (setStatusError t1 StatusConnected none, none)

/-! ## Work queue items and observable events -/

/-- Closures enqueued on the tunnel's `works` channel, by origin. -/
inductive WorkItem where
  | downWork (hasWait : Bool)
  | destroyWork (hasWait : Bool)
  | reconnectWork (hasWait : Bool)
  | acceptFailWork (e : GoError)
  | connWork (connId : Nat)
  | snapshotWork
  deriving DecidableEq, Repr

/-- Externally observable events of a tunnel operation: a send on the
caller's `waitDone` channel, or an enqueue on the work queue. -/
inductive TEvent where
  | signal (v : Option GoError)
  | enqueue (w : WorkItem)
  deriving DecidableEq, Repr

/-- `Down(waitDone)` (tunnel.go): if the tunnel is not running, signal
`waitDone` (when non-nil) and return with no state change; otherwise
enqueue the tear-down work item. -/
def Down (t : TunnelState) (hasWait : Bool) : TunnelState × List TEvent :=
  if isRunning t = false then
    (t, if hasWait then [TEvent.signal none] else [])
  else
    (t, [TEvent.enqueue (WorkItem.downWork hasWait)])

/-- `Destroy(waitDone)` (tunnel.go): if the tunnel is not running, set
`StatusRemoved` via `setStatusError`, signal `waitDone` (when non-nil)
and return; otherwise enqueue the destroy work item. -/
def Destroy (t : TunnelState) (hasWait : Bool) : TunnelState × List TEvent :=
  if isRunning t = false then
    (setStatusError t StatusRemoved none,
      if hasWait then [TEvent.signal none] else [])
  else
    (t, [TEvent.enqueue (WorkItem.destroyWork hasWait)])

/-! ## Listener accept loop -/

/-- One result of `t.listener.Accept()`: an accepted connection
(identified by a number) or an error. -/
inductive AcceptResult where
  | conn (id : Nat)
  | failed (e : GoError)
  deriving DecidableEq, Repr

/-- `listenLocal` (tunnel.go): loop over accept results; each accepted
connection enqueues a dial-and-forward work item; the first accept
error enqueues a single status work item and exits the loop (results
after the error are never seen). Returns the enqueued items in order. -/
def listenLocal : List AcceptResult → List WorkItem
  | [] => []
  | AcceptResult.conn n :: rest => WorkItem.connWork n :: listenLocal rest
  | AcceptResult.failed e :: _ => [WorkItem.acceptFailWork e]

/-- Body of the work item enqueued by `listenLocal` on accept failure:
if the tunnel is closed, do nothing; otherwise set `StatusClosed` with
the accept error (which ORs in the `StatusError` bit). -/
def runAcceptFailWork (t : TunnelState) (e : GoError) : TunnelState :=
  if isClosed t then t else setStatusError t StatusClosed (some e)

/-! ## Connector set (google/btree keyed by `Connector.Less`, i.e.
ascending `counter`; modelled as a list kept in ascending order, so
that `Ascend` is the identity traversal) -/

/-- `btree.ReplaceOrInsert` on the ordered connector list: insert in
ascending `counter` position, replacing an item with equal `counter`. -/
def replaceOrInsert (c : Connector) : List Connector → List Connector
  | [] => [c]
  | x :: xs =>
    if c.counter < x.counter then c :: x :: xs
    else if x.counter < c.counter then x :: replaceOrInsert c xs
    else c :: xs

/-- `newConnector` (tunnel.go): increment `cCount`, build a connector
with the fresh counter and insert it into the btree. -/
def newConnector (t : TunnelState) : TunnelState × Connector :=
  let cnt : Connector := { counter := t.cCount + 1 }
  ({ t with cCount := t.cCount + 1,
            connectors := replaceOrInsert cnt t.connectors }, cnt)

/-- `GetConnectors` (tunnel.go): if the tunnel is not running return
nil immediately (no work enqueued); otherwise enqueue a snapshot work
item whose body allocates a fresh slice and fills it by `Ascend` over
the btree, and return that slice. -/
def GetConnectors (t : TunnelState) :
    Option (List Connector) × List WorkItem :=
  if isRunning t = false then (none, [])
  else (some t.connectors, [WorkItem.snapshotWork])

/-- Connector-set invariant maintained by the tunnel: the btree list
is strictly ascending in `counter` and every counter is at most
`cCount` (the next counter is fresh). -/
def ConnInv (t : TunnelState) : Prop :=
  t.connectors.Pairwise (fun a b => a.counter < b.counter) ∧
  ∀ c ∈ t.connectors, c.counter ≤ t.cCount

/-! ## Status reachability

Every assignment to `t.status` in the bitmask variant of tunnel.go
goes through `setStatusError` (which overwrites the whole bitmask,
ORing in `StatusError` when the error argument is non-nil), except the
deferred `t.status &= ^StatusRunning` at the end of `runOnce`. The
step relation below has one constructor per assignment site;
`UpdateStatus` has no caller in this variant. -/

/-- The deferred `t.status &= ^StatusRunning` of `runOnce`: clear the
`StatusRunning` bit (written as XOR with the masked bit, which equals
AND with the complement on machine integers). -/
def clearRunning (s : Nat) : Nat := s ^^^ (s &&& StatusRunning)

/-- One status assignment of the tunnel code, by call site:
`toConnecting` and `toConnected` are `forceConnect`'s
`setStatusError(StatusConnecting, nil)` and
`setStatusError(StatusConnected, nil)`; `errorOverlay` is `runOnce`'s
`setStatusError(StatusError, err)` with non-nil `err` (connect
failure, work error, nil client, keepalive failure); `acceptFail` is
the accept-failure work item when the tunnel is not closed;
`downToClosed` is `Down`'s work `setStatusError(StatusClosed, nil)`;
`toRemoved` is `Destroy`'s `setStatusError(StatusRemoved, nil)`;
`workTaskExit` is the deferred clearing of the running bit. -/
inductive StatusStep : Nat → Nat → Prop where
  | toConnecting (s : Nat) : StatusStep s StatusConnecting
  | toConnected (s : Nat) : StatusStep s StatusConnected
  | errorOverlay (s : Nat) : StatusStep s (StatusError ||| StatusError)
  | acceptFail (s : Nat) (h : ¬ s &&& StatusClosed = StatusClosed) :
      StatusStep s (StatusClosed ||| StatusError)
  | downToClosed (s : Nat) : StatusStep s StatusClosed
  | toRemoved (s : Nat) : StatusStep s StatusRemoved
  | workTaskExit (s : Nat) : StatusStep s (clearRunning s)

/-- Status values reachable from the initial `StatusNew` through the
assignments of the tunnel code. -/
inductive ReachableStatus : Nat → Prop where
  | init : ReachableStatus StatusNew
  | step {s s' : Nat} : ReachableStatus s → StatusStep s s' →
      ReachableStatus s'

/-- The exact set of status values the step relation can produce,
as a disjunction: the five assigned bitmasks, the bare overlay values
`StatusError` and `StatusRemoved`, and the running-bit-cleared forms
`4` (= `StatusConnected` without `Running`), `16` (= `StatusClosed`
without `Running`) and `StatusError ||| 16`. -/
def StatusInv (s : Nat) : Prop :=
  s = StatusNew ∨ s = StatusConnecting ∨ s = 4 ∨ s = 16 ∨
  s = StatusConnected ∨ s = StatusClosed ∨ s = StatusError ∨
  s = StatusError ||| 16 ∨ s = StatusClosed ||| StatusError ∨
  s = StatusRemoved

/-! ## Fleet ("Mario", internal/manage.go) -/

/-- Actions on the fleet's `actions` queue (`actOpen`, `actClose`,
`actReconnect`), each carrying the target tunnel (a numeric handle;
`openAct` also carries the pre-built view's name). -/
inductive MarioAction where
  | openAct (tn : Nat) (name : String)
  | close (tn : Nat)
  | reconnect (tn : Nat)
  deriving DecidableEq, Repr

/-- `Mario.Up(tn, waitDone)` (manage.go): if `tn` is nil, send
`errors.New("nil tn")` on `waitDone` and return; if the tunnel status
already includes the `StatusConnected` bits, send nil and return; else
enqueue one reconnect action. The tunnel argument is a nil-able pair
(handle, status); the result is the value sent on `waitDone` (if any)
together with the actions enqueued. -/
def marioUp (tn : Option (Nat × Nat)) :
    Option (Option GoError) × List MarioAction :=
  match tn with
  | none => (some (some GoError.nilTunnel), [])
  | some (id, st) =>
    if st &&& StatusConnected == StatusConnected then (some none, [])
    else (none, [MarioAction.reconnect id])

/-- One nanosecond-valued `time.Duration` second (`time.Second`). -/
def second : Int := 1000000000

/-- The `CheckAliveInterval` stored by `NewMario` in the current
variant of manage.go: the heartbeat argument, unmodified (this variant
performs no clamping). -/
def newMarioInterval (heartbeat : Int) : Int := heartbeat

/-- The `CheckAliveInterval` stored by the old variant of `NewMario`:
a heartbeat below 30 seconds is clamped up to 30 seconds. -/
def newMarioIntervalOld (heartbeat : Int) : Int :=
  if heartbeat < 30 * second then 30 * second else heartbeat

/-! ## Fleet dispatcher (`Monitor`, manage.go) -/

/-- Dispatcher state: the registry of views (tunnel handle paired with
view name), the id counter, and the observable effects so far: tunnels
to which a `Down` was forwarded, tunnels to which a `Reconnect` was
forwarded, and views forwarded on the broadcast channel. -/
structure FleetState where
  wrappers : List (Nat × String)
  tunnelCount : Nat
  downed : List Nat
  reconnected : List Nat
  published : List Nat
  deriving DecidableEq, Repr

/-- A fleet with an empty registry and no effects. -/
def initFleet : FleetState :=
  { wrappers := [], tunnelCount := 0, downed := [], reconnected := [],
    published := [] }

/-- One arrival on one of the three channels the dispatcher selects
over: an action, a status update carrying a tunnel handle, or the
stop signal. -/
inductive FleetEvent where
  | action (a : MarioAction)
  | statusUpdate (raw : Nat)
  | stopSignal
  deriving DecidableEq, Repr

/-- Map lookup `m.wrappers[raw]`. -/
def lookupWrapper (ws : List (Nat × String)) (id : Nat) : Option String :=
  (ws.find? (fun p => p.1 == id)).map Prod.snd

/-- Map assignment `m.wrappers[k] = v` (replace or insert). -/
def insertWrapper (ws : List (Nat × String)) (id : Nat) (name : String) :
    List (Nat × String) :=
  match ws with
  | [] => [(id, name)]
  | (i, n) :: rest =>
    if i == id then (id, name) :: rest
    else (i, n) :: insertWrapper rest id name

/-- One iteration of the dispatcher's `select` (manage.go `Monitor`):
`actOpen` inserts the pre-built view; `actClose` forwards `Down` with
the action's completion channel; `actReconnect` forwards `Reconnect`;
a status update looks up the view, wrapping an unknown tunnel with a
fresh id and the name "unknown", and forwards the view on the
broadcast channel. The `stop` case executes Go's `break`, which
terminates only the `select` statement and NOT the enclosing `for`
loop, so it changes nothing and the loop continues. -/
def dispatchEvent (m : FleetState) : FleetEvent → FleetState
  | FleetEvent.action (MarioAction.openAct tn name) =>
      { m with wrappers := insertWrapper m.wrappers tn name }
  | FleetEvent.action (MarioAction.close tn) =>
      { m with downed := m.downed ++ [tn] }
  | FleetEvent.action (MarioAction.reconnect tn) =>
      { m with reconnected := m.reconnected ++ [tn] }
  | FleetEvent.statusUpdate raw =>
      match lookupWrapper m.wrappers raw with
      | some _ => { m with published := m.published ++ [raw] }
      | none =>
        { m with tunnelCount := m.tunnelCount + 1,
                 wrappers := insertWrapper m.wrappers raw "unknown",
                 published := m.published ++ [raw] }
  | FleetEvent.stopSignal => m

/-- The dispatcher goroutine of `Monitor`, run over a finite trace of
channel arrivals. Because the `stop` case never leaves the `for`
loop, every event of the trace is dispatched. -/
def monitorLoop (m : FleetState) : List FleetEvent → FleetState
  | [] => m
  | e :: rest => monitorLoop (dispatchEvent m e) rest

/-! ## NewTunnel configuration validation (`NewTunnel`, tunnel.go)

`strings.Split` with a one-character separator and `strconv.Atoi`
are embedded below; private-key reading and parsing are external
calls modelled by an oracle. -/

/-- `strings.Split(s, sep)` for a single-character separator: all the
substrings between occurrences of `sep`, empty fields included; the
result always has at least one element. -/
def splitOn (sep : Char) : List Char → List (List Char)
  | [] => [[]]
  | c :: rest =>
    if c = sep then [] :: splitOn sep rest
    else
      match splitOn sep rest with
      | [] => [[c]]
      | f :: fs => (c :: f) :: fs

/-- Value of a decimal digit character, or `none`. -/
def digitVal (c : Char) : Option Nat :=
  if '0' ≤ c ∧ c ≤ '9' then some (c.toNat - '0'.toNat) else none

/-- Accumulate the value of a digit string; `none` on any non-digit. -/
def digitsValAux (acc : Nat) : List Char → Option Nat
  | [] => some acc
  | c :: rest =>
    match digitVal c with
    | none => none
    | some d => digitsValAux (acc * 10 + d) rest

/-- Value of a non-empty all-digit string, `none` otherwise. -/
def digitsVal : List Char → Option Nat
  | [] => none
  | cs => digitsValAux 0 cs

/-- `strconv.Atoi(s)` (= `ParseInt(s, 10, 0)` with 64-bit int): an
optional sign followed by at least one digit, with the value required
to fit a signed 64-bit integer; `none` models a non-nil error. -/
def atoi (s : List Char) : Option Int :=
  match s with
  | [] => none
  | c :: rest =>
    if c = '-' then
      (digitsVal rest).bind fun v =>
        if v ≤ 2 ^ 63 then some (-(v : Int)) else none
    else if c = '+' then
      (digitsVal rest).bind fun v =>
        if v < 2 ^ 63 then some (v : Int) else none
    else
      (digitsVal s).bind fun v =>
        if v < 2 ^ 63 then some (v : Int) else none

/-- Results of the two external private-key steps of `NewTunnel`:
`readErr` for `key.ReadFrom(pk)` and `parseErr` for
`sh.ParsePrivateKey` (`none` = success). -/
structure KeyOracle where
  readErr : Option GoError
  parseErr : Option GoError
  deriving DecidableEq, Repr

/-- The tunnel object `NewTunnel` builds on success: the fields the
claims observe (`Local`, `SSHUri` = part after the first `@`,
`ForwardTo`, the config user, and the initial status). -/
structure NewTunnelOk where
  localAddr : String
  sshUri : String
  forwardTo : String
  user : String
  status : Nat
  deriving DecidableEq, Repr

/-- `NewTunnel(local, server, remote, pk, onStatus, sshTimeout)`
(tunnel.go): validate that `local` splits on `:` into at least two
parts with the second parsing as an integer, that `server` contains a
`@`, that `remote` splits on `:` into at least two parts, then read
and parse the private key; any failure returns that error and no
tunnel; success returns the tunnel object with `status: StatusNew`. -/
def NewTunnel (localAddr server remote : String) (key : KeyOracle) :
    Except GoError NewTunnelOk :=
  let locals := splitOn ':' localAddr.toList
  if locals.length < 2 then Except.error GoError.errInvalidLocalAddr
  else match atoi (locals.getD 1 []) with
  | none => Except.error GoError.atoiErr
  | some _ =>
    let serverParts := splitOn '@' server.toList
    if serverParts.length < 2 then Except.error GoError.errAnonymous
    else
      let remoteParts := splitOn ':' remote.toList
      if remoteParts.length < 2 then Except.error GoError.errMissedPort
      else match key.readErr with
      | some e => Except.error e
      | none =>
        match key.parseErr with
        | some e => Except.error e
        | none =>
          Except.ok
            { localAddr := localAddr,
              sshUri := (serverParts.getD 1 []).asString,
              forwardTo := remote,
              user := (serverParts.getD 0 []).asString,
              status := StatusNew }

/-- `Mario.Establish` (manage.go): read the private-key file (the
cached global or the per-tunnel path; a read failure returns the
error), call `NewTunnel` (an error returns it), then wrap the tunnel
with a freshly minted id whose name defaults to the decimal id and
insert it into the registry. Returns the registry, the id counter,
and the error; on any error the registry and counter are unchanged. -/
def Establish (registered : List (Nat × String)) (nextId : Nat)
    (name localAddr server remote : String)
    (fileReadErr : Option GoError) (parseErr : Option GoError) :
    List (Nat × String) × Nat × Option GoError :=
  match fileReadErr with
  | some e => (registered, nextId, some e)
  | none =>
    match NewTunnel localAddr server remote
        { readErr := none, parseErr := parseErr } with
    | Except.error e => (registered, nextId, some e)
    | Except.ok _ =>
      let id := nextId + 1
      let nm := if name = "" then toString id else name
      (insertWrapper registered id nm, id, none)

end Mario

namespace Mario

/-- C8: `Error()` returns the stored `err` value iff the `StatusError`
bit is set in the current status and nil otherwise; in particular
after `setStatusError(StatusClosed, nil)` the stale error object is
still stored in the `err` field, yet `Error()` returns nil because
`StatusClosed` does not carry the error bit. -/
theorem c8_error_iff_error_bit (t : TunnelState) :
    (t.status &&& StatusError = StatusError → tunnelError t = t.err) ∧
    (t.status &&& StatusError ≠ StatusError → tunnelError t = none) ∧
    (setStatusError t StatusClosed none).err = t.err ∧
    tunnelError (setStatusError t StatusClosed none) = none := by
  have hs : setStatusError t StatusClosed none
      = { t with status := StatusClosed } := rfl
  have hb : (StatusClosed &&& StatusError == StatusError) = false := rfl
  refine ⟨fun h => by simp [tunnelError, h], fun h => by simp [tunnelError, h],
    by rw [hs], ?_⟩
  rw [hs]
  simp only [tunnelError, hb, Bool.false_eq_true, if_false]

/-- Witness for C8: the theorem applied to a state that stores a stale
error while its status (`StatusConnected`) lacks the error bit. -/
theorem c8_error_iff_error_bit_witness :
    tunnelError { initTunnel with status := StatusConnected,
                                  err := some GoError.errRemoteLost } = none := by
  exact (c8_error_iff_error_bit _).2.1 (ne_of_beq_false rfl)

/-- C4: on a tunnel whose status lacks the `StatusRunning` bit, `Down`
changes no state and signals `waitDone` exactly when one is supplied,
while `Destroy` sets the status to `StatusRemoved` (keeping the stored
error field) and signals; neither enqueues any work item. -/
theorem c4_down_destroy_nonrunning (t : TunnelState) (w : Bool)
    (h : isRunning t = false) :
    (Down t w).1 = t ∧
    (Down t w).2 = (if w then [TEvent.signal none] else []) ∧
    (Destroy t w).1.status = StatusRemoved ∧
    (Destroy t w).1.err = t.err ∧
    (Destroy t w).2 = (if w then [TEvent.signal none] else []) ∧
    ∀ wi : WorkItem,
      TEvent.enqueue wi ∉ (Down t w).2 ∧
      TEvent.enqueue wi ∉ (Destroy t w).2 := by
  refine ⟨by simp [Down, h], by simp [Down, h], by simp [Destroy, h, setStatusError],
    by simp [Destroy, h, setStatusError], by simp [Destroy, h], fun wi => ?_⟩
  cases w <;> simp [Down, Destroy, h]

/-- Witness for C4 at the freshly created tunnel state, which is not
running, with a completion channel supplied. -/
theorem c4_down_destroy_nonrunning_witness :
    (Down initTunnel true).1 = initTunnel ∧
    (Destroy initTunnel true).1.status = StatusRemoved ∧
    (Destroy initTunnel true).2 = [TEvent.signal none] := by
  have h := c4_down_destroy_nonrunning initTunnel true rfl
  exact ⟨h.1, h.2.2.1, by simpa using h.2.2.2.2.1⟩

/-- C5: `Mario.Up` sends the "nil tn" error on `done` for a nil
tunnel, sends nil success without enqueuing for a tunnel whose status
already includes the `StatusConnected` bits, and otherwise enqueues
exactly one reconnect action for that tunnel. -/
theorem c5_mario_up (id st : Nat) :
    marioUp none = (some (some GoError.nilTunnel), []) ∧
    (st &&& StatusConnected = StatusConnected →
      marioUp (some (id, st)) = (some none, [])) ∧
    (st &&& StatusConnected ≠ StatusConnected →
      marioUp (some (id, st)) = (none, [MarioAction.reconnect id])) := by
  refine ⟨rfl, fun h => by simp [marioUp, h], fun h => by simp [marioUp, h]⟩

/-- Witness for C5: a connected tunnel (status `StatusConnected|Error`)
gets an immediate success signal, and a new tunnel gets one reconnect
action enqueued. -/
theorem c5_mario_up_witness :
    marioUp (some (3, StatusConnected ||| StatusError)) = (some none, []) ∧
    marioUp (some (4, StatusNew)) = (none, [MarioAction.reconnect 4]) :=
  ⟨(c5_mario_up 3 (StatusConnected ||| StatusError)).2.1 rfl,
   (c5_mario_up 4 StatusNew).2.2 (ne_of_beq_false rfl)⟩

/-- C7 counterexample: the current variant of `NewMario` stores a
one-second heartbeat unchanged, below both candidate minimums, so the
claimed clamping does not happen there. -/
theorem c7_no_clamp_counterexample :
    newMarioInterval (1 * second) = 1 * second ∧
    1 * second < 15 * second ∧ 1 * second < 30 * second := by
  refine ⟨rfl, by norm_num [second], by norm_num [second]⟩

/-- C7 (amended): the current `NewMario` stores the heartbeat argument
unchanged with no minimum, while the old variant clamps heartbeats
below 30 seconds up to exactly 30 seconds (never 15), so only in the
old variant is the stored interval never below the 30-second minimum. -/
theorem c7_clamp_variants (hb : Int) :
    newMarioInterval hb = hb ∧
    30 * second ≤ newMarioIntervalOld hb ∧
    (30 * second ≤ hb → newMarioIntervalOld hb = hb) := by
  refine ⟨rfl, ?_, fun h => ?_⟩
  · unfold newMarioIntervalOld
    by_cases hlt : hb < 30 * second
    · rw [if_pos hlt]
    · rw [if_neg hlt]
      exact not_lt.mp hlt
  · unfold newMarioIntervalOld
    rw [if_neg (not_lt.mpr h)]

/-- Witness for C7 at a two-second heartbeat: the current variant
keeps it, the old variant raises it to 30 seconds. -/
theorem c7_clamp_variants_witness :
    newMarioInterval (2 * second) = 2 * second ∧
    30 * second ≤ newMarioIntervalOld (2 * second) :=
  ⟨(c7_clamp_variants (2 * second)).1, (c7_clamp_variants (2 * second)).2.1⟩

/-! ### C1: status bitmask invariant -/

-- Every step of the status relation lands inside the ten-value set.
theorem statusStep_inv {s s' : Nat} (hinv : StatusInv s)
    (h : StatusStep s s') : StatusInv s' := by
  cases h with
  | toConnecting => exact Or.inr (Or.inl rfl)
  | toConnected => exact Or.inr (Or.inr (Or.inr (Or.inr (Or.inl rfl))))
  | errorOverlay =>
      exact Or.inr (Or.inr (Or.inr (Or.inr (Or.inr (Or.inr (Or.inl rfl))))))
  | acceptFail h2 =>
      exact Or.inr (Or.inr (Or.inr (Or.inr (Or.inr (Or.inr (Or.inr
        (Or.inr (Or.inl rfl))))))))
  | downToClosed =>
      exact Or.inr (Or.inr (Or.inr (Or.inr (Or.inr (Or.inl rfl)))))
  | toRemoved =>
      exact Or.inr (Or.inr (Or.inr (Or.inr (Or.inr (Or.inr (Or.inr
        (Or.inr (Or.inr rfl))))))))
  | workTaskExit =>
      rcases hinv with rfl | rfl | rfl | rfl | rfl | rfl | rfl | rfl | rfl | rfl
      · exact Or.inl rfl
      · exact Or.inr (Or.inl rfl)
      · exact Or.inr (Or.inr (Or.inl rfl))
      · exact Or.inr (Or.inr (Or.inr (Or.inl rfl)))
      · exact Or.inr (Or.inr (Or.inl rfl))
      · exact Or.inr (Or.inr (Or.inr (Or.inl rfl)))
      · exact Or.inr (Or.inr (Or.inr (Or.inr (Or.inr (Or.inr (Or.inl rfl))))))
      · exact Or.inr (Or.inr (Or.inr (Or.inr (Or.inr (Or.inr (Or.inr
          (Or.inl rfl)))))))
      · exact Or.inr (Or.inr (Or.inr (Or.inr (Or.inr (Or.inr (Or.inr
          (Or.inl rfl)))))))
      · exact Or.inr (Or.inr (Or.inr (Or.inr (Or.inr (Or.inr (Or.inr
          (Or.inr (Or.inr rfl))))))))

-- Every reachable status lies in the ten-value set.
theorem reachableStatus_inv {s : Nat} (h : ReachableStatus s) :
    StatusInv s := by
  induction h with
  | init => exact Or.inl rfl
  | step _ hstep ih => exact statusStep_inv ih hstep

/-- C1 counterexample: a status consisting of the `StatusError` bit
alone is reachable — `runOnce` assigns bare `StatusError` when the
initial `forceConnect` fails — and that status has no primary bits, no
running bit and no removed bit, yet is a distinct value from
`StatusNew`; so "no reachable status consists of the Error bit alone
with no primary state" is false on the code. -/
theorem c1_error_bit_alone_reachable :
    ReachableStatus StatusError ∧
    StatusError &&& StatusRunning = 0 ∧
    StatusError &&& (StatusRunning - 1) = 0 ∧
    StatusError &&& StatusRemoved = 0 ∧
    StatusError ≠ StatusNew := by
  refine ⟨?_, rfl, rfl, rfl, ne_of_beq_false rfl⟩
  have h : StatusError ||| StatusError = StatusError := rfl
  have hr := ReachableStatus.step ReachableStatus.init
    (StatusStep.errorOverlay StatusNew)
  rwa [h] at hr

/-- C1 (amended): every reachable status carries exactly one primary
state in its low bits — its value with the `Running`, `Error` and
`Removed` bits masked off equals the primary part of exactly one of
`New`, `Connecting`, `Connected`, `Reconnecting`, `Closed` — and
`StatusError` only ever appears ORed on top of such a value; however
the bare `StatusError` overlay with primary part equal to `StatusNew`
(zero) is reachable through `runOnce`'s failure paths. -/
theorem c1_primary_state_invariant (s : Nat) (h : ReachableStatus s) :
    s &&& (StatusRunning - 1) = StatusNew ∨
    s &&& (StatusRunning - 1) = StatusConnecting ∨
    s &&& (StatusRunning - 1) = StatusConnected &&& (StatusRunning - 1) ∨
    s &&& (StatusRunning - 1) = StatusReconnecting &&& (StatusRunning - 1) ∨
    s &&& (StatusRunning - 1) = StatusClosed &&& (StatusRunning - 1) := by
  rcases reachableStatus_inv h with rfl | rfl | rfl | rfl | rfl | rfl | rfl |
    rfl | rfl | rfl
  · exact Or.inl rfl
  · exact Or.inr (Or.inl rfl)
  · exact Or.inr (Or.inr (Or.inl rfl))
  · exact Or.inr (Or.inr (Or.inr (Or.inr rfl)))
  · exact Or.inr (Or.inr (Or.inl rfl))
  · exact Or.inr (Or.inr (Or.inr (Or.inr rfl)))
  · exact Or.inl rfl
  · exact Or.inr (Or.inr (Or.inr (Or.inr rfl)))
  · exact Or.inr (Or.inr (Or.inr (Or.inr rfl)))
  · exact Or.inl rfl

/-- Witness for C1 at the status reached by the first successful
connect: `StatusConnected`'s primary part is the `Connected` primary. -/
theorem c1_primary_state_invariant_witness :
    StatusConnected &&& (StatusRunning - 1) = StatusNew ∨
    StatusConnected &&& (StatusRunning - 1) = StatusConnecting ∨
    StatusConnected &&& (StatusRunning - 1)
      = StatusConnected &&& (StatusRunning - 1) ∨
    StatusConnected &&& (StatusRunning - 1)
      = StatusReconnecting &&& (StatusRunning - 1) ∨
    StatusConnected &&& (StatusRunning - 1)
      = StatusClosed &&& (StatusRunning - 1) :=
  c1_primary_state_invariant StatusConnected
    (ReachableStatus.step ReachableStatus.init
      (StatusStep.toConnected StatusNew))

/-! ### C3: the dispatcher after a stop signal -/

/-- C3: evaluating the dispatcher loop on the trace
stop-then-close-then-status: because Go's `break` inside `select`
terminates only the `select` and not the surrounding `for`, the
dispatcher still forwards the close action for tunnel 7 and still
broadcasts the status update for tunnel 3 after the stop signal,
contradicting the claim that it processes no further actions and
forwards no further updates. -/
theorem c3_dispatcher_continues_after_stop :
    (monitorLoop initFleet
      [FleetEvent.stopSignal, FleetEvent.action (MarioAction.close 7),
       FleetEvent.statusUpdate 3]).downed = [7] ∧
    (monitorLoop initFleet
      [FleetEvent.stopSignal, FleetEvent.action (MarioAction.close 7),
       FleetEvent.statusUpdate 3]).published = [3] := by
  exact ⟨rfl, rfl⟩

/-! ### C2: forceConnect step order -/

/-- C2 counterexample: on a fresh tunnel whose SSH dial fails,
`forceConnect` returns the dial error with the status still
`StatusNew` — the status was never set to `StatusConnecting`, so the
claimed order "set `Connecting` before dialing" is false on the code
(the code dials first and sets `Connecting` only afterwards, inside
the listener-binding branch). -/
theorem c2_no_connecting_before_dial :
    (forceConnect initTunnel
      { dial := some (GoError.dialErr 0), listen := none }).2
      = some (GoError.dialErr 0) ∧
    (forceConnect initTunnel
      { dial := some (GoError.dialErr 0), listen := none }).1.status
      = StatusNew ∧
    StatusNew ≠ StatusConnecting :=
  ⟨rfl, rfl, ne_of_beq_false rfl⟩

/-- C2 (amended): `forceConnect` dials SSH first; on dial failure it
returns the error with no state change at all (in particular the
status is not `Connecting`); only when there is no listener or the
tunnel is `Closed` does it then set status `Connecting` (a value with
the `Error` bit clear) and bind the local TCP listener, returning the
bind error on failure; on success — and likewise when a live listener
made binding unnecessary — it finishes by setting status `Connected`,
also with the `Error` bit clear. -/
theorem c2_forceConnect_order (t : TunnelState) (net : NetOracle) :
    (∀ e, net.dial = some e → forceConnect t net = (t, some e)) ∧
    (net.dial = none → (t.hasListener = false ∨ isClosed t = true) →
      ((∀ e, net.listen = some e →
          (forceConnect t net).1.status = StatusConnecting ∧
          (forceConnect t net).1.err = t.err ∧
          (forceConnect t net).1.hasListener = t.hasListener ∧
          (forceConnect t net).2 = some e) ∧
       (net.listen = none →
          (forceConnect t net).1.status = StatusConnected ∧
          (forceConnect t net).1.hasListener = true ∧
          (forceConnect t net).2 = none))) ∧
    (net.dial = none → t.hasListener = true → isClosed t = false →
      (forceConnect t net).1.status = StatusConnected ∧
      (forceConnect t net).1.hasListener = true ∧
      (forceConnect t net).2 = none) ∧
    StatusConnecting &&& StatusError = 0 ∧
    StatusConnected &&& StatusError = 0 := by
  obtain ⟨d, l⟩ := net
  refine ⟨?_, ?_, ?_, rfl, rfl⟩
  · rintro e rfl
    rfl
  · rintro rfl hcond
    have hb : (!({ t with hasClient := true } : TunnelState).hasListener
        || isClosed { t with hasClient := true }) = true := by
      rcases hcond with h | h
      · simp [h]
      · have hcl : isClosed { t with hasClient := true } = isClosed t := rfl
        rw [hcl, h]
        simp
    constructor
    · rintro e rfl
      simp [forceConnect, hb, setStatusError]
    · rintro rfl
      simp [forceConnect, hb, setStatusError]
  · rintro rfl hl hcl
    have hc3 : isClosed { t with hasListener := true, hasClient := true } = false := by
      have hsame : isClosed { t with hasListener := true, hasClient := true } = isClosed t := rfl
      rw [hsame, hcl]
    simp [forceConnect, setStatusError, hl, hc3]

/-- Witness for C2 on a connected tunnel with a live listener whose
redial succeeds: the status ends `Connected` with no error returned. -/
theorem c2_forceConnect_order_witness :
    (forceConnect
      { initTunnel with status := StatusConnected, hasListener := true,
                        hasClient := true }
      { dial := none, listen := none }).1.status = StatusConnected ∧
    (forceConnect
      { initTunnel with status := StatusConnected, hasListener := true,
                        hasClient := true }
      { dial := none, listen := none }).2 = none := by
  have h := (c2_forceConnect_order
    { initTunnel with status := StatusConnected, hasListener := true,
                      hasClient := true }
    { dial := none, listen := none }).2.2.1 rfl rfl rfl
  exact ⟨h.1, h.2.2⟩

/-! ### C6: accept-failure handling -/

/-- C6: when `Accept` returns an error after any number of accepted
connections, the loop enqueues exactly one final work item and exits
(whatever would come after the error is never consumed); running that
work item on a tunnel that is already `Closed` leaves the state
completely unchanged (no `Error` bit is gained), while on any other
tunnel it sets status `Closed` with the `Error` bit ORed in and the
accept error stored. -/
theorem c6_accept_error_closes_once (conns : List Nat) (e : GoError)
    (rest : List AcceptResult) (t : TunnelState) :
    listenLocal (conns.map AcceptResult.conn ++ AcceptResult.failed e :: rest)
      = conns.map WorkItem.connWork ++ [WorkItem.acceptFailWork e] ∧
    (isClosed t = true → runAcceptFailWork t e = t) ∧
    (isClosed t = false →
      (runAcceptFailWork t e).status = (StatusClosed ||| StatusError) ∧
      (runAcceptFailWork t e).err = some e) := by
  refine ⟨?_, fun h => by simp [runAcceptFailWork, h], fun h => ?_⟩
  · induction conns with
    | nil => rfl
    | cons c cs ih => simpa [listenLocal] using ih
  · constructor <;> simp [runAcceptFailWork, h, setStatusError]

/-- Witness for C6: one accepted connection then an accept error on a
fresh (not yet closed) tunnel: one connection work item plus exactly
one closing work item, whose body moves the tunnel to
`Closed|Error`. -/
theorem c6_accept_error_closes_once_witness :
    listenLocal [AcceptResult.conn 5, AcceptResult.failed (GoError.acceptErr 0)]
      = [WorkItem.connWork 5, WorkItem.acceptFailWork (GoError.acceptErr 0)] ∧
    (runAcceptFailWork initTunnel (GoError.acceptErr 0)).status
      = (StatusClosed ||| StatusError) := by
  have h := c6_accept_error_closes_once [5] (GoError.acceptErr 0) [] initTunnel
  exact ⟨h.1, (h.2.2 rfl).1⟩

/-! ### C10: GetConnectors -/

-- Inserting a connector whose counter exceeds every existing counter
-- lands at the end of the ordered list.
theorem replaceOrInsert_append (c : Connector) (l : List Connector)
    (h : ∀ x ∈ l, x.counter < c.counter) :
    replaceOrInsert c l = l ++ [c] := by
  induction l with
  | nil => rfl
  | cons x xs ih =>
    have hx := h x (List.mem_cons_self x xs)
    simp only [replaceOrInsert]
    rw [if_neg (by omega), if_pos hx,
      ih (fun y hy => h y (List.mem_cons_of_mem x hy))]
    simp

-- newConnector appends the fresh connector at the end of the ordered
-- list and preserves the connector-set invariant.
theorem newConnector_spec (t : TunnelState) (h : ConnInv t) :
    (newConnector t).1.connectors
      = t.connectors ++ [{ counter := t.cCount + 1 }] ∧
    ConnInv (newConnector t).1 := by
  obtain ⟨hsort, hle⟩ := h
  have hlt : ∀ x ∈ t.connectors,
      x.counter < ({ counter := t.cCount + 1 } : Connector).counter :=
    fun x hx => Nat.lt_succ_of_le (hle x hx)
  have happ := replaceOrInsert_append { counter := t.cCount + 1 }
    t.connectors hlt
  refine ⟨by simp [newConnector, happ], ?_, ?_⟩
  · simp only [newConnector, happ]
    refine List.pairwise_append.mpr ⟨hsort, List.pairwise_singleton _ _, ?_⟩
    intro a ha b hb
    have hb2 : b = { counter := t.cCount + 1 } := by simpa using hb
    rw [hb2]
    exact hlt a ha
  · simp only [newConnector, happ]
    intro c hc
    rcases List.mem_append.mp hc with hc1 | hc2
    · exact Nat.le_succ_of_le (hle c hc1)
    · have : c = { counter := t.cCount + 1 } := by simpa using hc2
      rw [this]

/-- C10: on a tunnel whose status lacks the `Running` bit,
`GetConnectors` returns nil with no work item enqueued; on a running
tunnel it enqueues exactly one snapshot work item and returns the
fresh slice filled by ascending over the btree — a list in strictly
ascending `counter` order containing exactly the tunnel's connectors
— and `newConnector` extends that order at the end, so ascending
counter order is insertion order. -/
theorem c10_get_connectors (t : TunnelState) :
    (isRunning t = false → GetConnectors t = (none, [])) ∧
    (isRunning t = true → ConnInv t →
      (GetConnectors t).2 = [WorkItem.snapshotWork] ∧
      ∃ l, (GetConnectors t).1 = some l ∧
        l.Pairwise (fun a b => a.counter < b.counter) ∧
        ∀ c, c ∈ l ↔ c ∈ t.connectors) ∧
    (ConnInv t → (newConnector t).1.connectors
        = t.connectors ++ [{ counter := t.cCount + 1 }] ∧
      ConnInv (newConnector t).1) := by
  refine ⟨fun h => by simp [GetConnectors, h], fun h hinv => ?_,
    fun hinv => newConnector_spec t hinv⟩
  refine ⟨by simp [GetConnectors, h], t.connectors,
    by simp [GetConnectors, h], hinv.1, fun c => Iff.rfl⟩

/-- Witness for C10 on a running, connected tunnel holding two
connectors in insertion order. -/
theorem c10_get_connectors_witness :
    (GetConnectors
      { initTunnel with
          status := StatusConnected,
          connectors := [{ counter := 1 }, { counter := 2 }],
          cCount := 2 }).2 = [WorkItem.snapshotWork] ∧
    GetConnectors
      { initTunnel with
          status := StatusNew,
          connectors := [{ counter := 1 }, { counter := 2 }],
          cCount := 2 } = (none, []) := by
  have hinv : ConnInv
      { initTunnel with
          status := StatusConnected,
          connectors := [{ counter := 1 }, { counter := 2 }],
          cCount := 2 } := by
    constructor
    · refine List.pairwise_cons.mpr ⟨?_, List.pairwise_singleton _ _⟩
      intro b hb
      have hb2 : b = { counter := 2 } := by simpa using hb
      rw [hb2]
      exact Nat.one_lt_two
    · intro c hc
      rcases List.mem_cons.mp hc with h1 | h2
      · rw [h1]
        exact Nat.le_of_lt Nat.one_lt_two
      · have hc2 : c = { counter := 2 } := by simpa using h2
        rw [hc2]
  have hrun : isRunning
      { initTunnel with
          status := StatusConnected,
          connectors := [{ counter := 1 }, { counter := 2 }],
          cCount := 2 } = true := rfl
  exact ⟨((c10_get_connectors _).2.1 hrun hinv).1, (c10_get_connectors _).1 rfl⟩

/-! ### C9: NewTunnel and Establish configuration errors -/

-- Split always produces at least one field.
theorem one_le_splitOn_length (sep : Char) (s : List Char) :
    1 ≤ (splitOn sep s).length := by
  induction s with
  | nil => simp [splitOn]
  | cons c rest ih =>
    by_cases h : c = sep
    · simp [splitOn, h]
    · simp only [splitOn, if_neg h]
      cases hs : splitOn sep rest with
      | nil => simp
      | cons f fs => simp

-- Split produces at least two fields exactly when the separator occurs.
theorem two_le_splitOn_length_iff (sep : Char) (s : List Char) :
    2 ≤ (splitOn sep s).length ↔ sep ∈ s := by
  induction s with
  | nil => simp [splitOn]
  | cons c rest ih =>
    by_cases h : c = sep
    · subst h
      have hsimp : splitOn c (c :: rest) = [] :: splitOn c rest := by
        simp [splitOn]
      rw [hsimp, List.length_cons]
      have h1 := one_le_splitOn_length c rest
      constructor
      · intro _
        exact List.mem_cons_self c rest
      · intro _
        omega
    · simp only [splitOn, if_neg h]
      cases hs : splitOn sep rest with
      | nil => exact absurd (one_le_splitOn_length sep rest) (by simp [hs])
      | cons f fs =>
        rw [hs] at ih
        simp only [List.length_cons] at ih ⊢
        constructor
        · intro hl
          exact List.mem_cons_of_mem c (ih.mp hl)
        · intro hm
          rcases List.mem_cons.mp hm with h1 | h2
          · exact absurd h1.symm h
          · exact ih.mpr h2

-- Splitting produces fewer than two fields exactly when the
-- separator does not occur.
theorem splitOn_length_lt_two_iff (sep : Char) (s : List Char) :
    (splitOn sep s).length < 2 ↔ ¬ sep ∈ s := by
  rw [← not_le]
  exact not_congr (two_le_splitOn_length_iff sep s)

/-- C9: `NewTunnel` returns an error synchronously and creates no
tunnel exactly when the configuration is bad — the local address has
no `:`-separated second field or that field fails `Atoi`, the server
string has no `@`, the remote string has no `:`, or the private key
cannot be read or parsed; when it does succeed the tunnel starts in
`StatusNew`; and `Establish` returns any key-read or `NewTunnel` error
with the fleet registry and id counter unchanged, registering
nothing. -/
theorem c9_config_errors (localAddr server remote : String)
    (key : KeyOracle) (registered : List (Nat × String)) (nextId : Nat)
    (name : String) (fileReadErr parseErr : Option GoError) :
    ((NewTunnel localAddr server remote key).isOk = false ↔
      ¬ ':' ∈ localAddr.toList ∨
      atoi ((splitOn ':' localAddr.toList).getD 1 []) = none ∨
      ¬ '@' ∈ server.toList ∨
      ¬ ':' ∈ remote.toList ∨
      key.readErr ≠ none ∨ key.parseErr ≠ none) ∧
    (∀ ok, NewTunnel localAddr server remote key = Except.ok ok →
      ok.status = StatusNew) ∧
    ((fileReadErr ≠ none ∨
      (NewTunnel localAddr server remote
        { readErr := none, parseErr := parseErr }).isOk = false) →
      ∃ e, Establish registered nextId name localAddr server remote
        fileReadErr parseErr = (registered, nextId, some e)) := by
  have hlen := splitOn_length_lt_two_iff
  refine ⟨?_, ?_, ?_⟩
  · by_cases h1 : (splitOn ':' localAddr.toList).length < 2
    · refine iff_of_true ?_ (Or.inl ((hlen ':' localAddr.toList).mp h1))
      simp only [NewTunnel]
      rw [if_pos h1]
      rfl
    · cases h2 : atoi ((splitOn ':' localAddr.toList).getD 1 []) with
      | none =>
        refine iff_of_true ?_ (Or.inr (Or.inl rfl))
        simp only [NewTunnel]
        rw [if_neg h1, h2]
        rfl
      | some v =>
        by_cases h3 : (splitOn '@' server.toList).length < 2
        · refine iff_of_true ?_
            (Or.inr (Or.inr (Or.inl ((hlen '@' server.toList).mp h3))))
          simp only [NewTunnel]
          rw [if_neg h1, h2, if_pos h3]
          rfl
        · by_cases h4 : (splitOn ':' remote.toList).length < 2
          · refine iff_of_true ?_ (Or.inr (Or.inr (Or.inr
              (Or.inl ((hlen ':' remote.toList).mp h4)))))
            simp only [NewTunnel]
            rw [if_neg h1, h2, if_neg h3, if_pos h4]
            rfl
          · cases hr : key.readErr with
            | some e =>
              refine iff_of_true ?_
                (Or.inr (Or.inr (Or.inr (Or.inr (Or.inl (by simp))))))
              simp only [NewTunnel]
              rw [if_neg h1, h2, if_neg h3, if_neg h4, hr]
              rfl
            | none =>
              cases hp : key.parseErr with
              | some e =>
                refine iff_of_true ?_
                  (Or.inr (Or.inr (Or.inr (Or.inr (Or.inr (by simp))))))
                simp only [NewTunnel]
                rw [if_neg h1, h2, if_neg h3, if_neg h4, hr, hp]
                rfl
              | none =>
                refine iff_of_false ?_ ?_
                · intro hbad
                  simp only [NewTunnel] at hbad
                  rw [if_neg h1, h2, if_neg h3, if_neg h4, hr, hp] at hbad
                  simp [Except.isOk, Except.toBool] at hbad
                · rintro (h | h | h | h | h | h)
                  · exact h1 ((hlen ':' localAddr.toList).mpr h)
                  · exact Option.noConfusion h
                  · exact h3 ((hlen '@' server.toList).mpr h)
                  · exact h4 ((hlen ':' remote.toList).mpr h)
                  · exact h rfl
                  · exact h rfl
  · intro ok h
    simp only [NewTunnel] at h
    repeat' split at h
    all_goals cases h
    rfl
  · intro hyp
    cases hf : fileReadErr with
    | some e => exact ⟨e, by simp [Establish, hf]⟩
    | none =>
      rcases hyp with h | h
      · exact absurd hf h
      · cases hnt : NewTunnel localAddr server remote
            { readErr := none, parseErr := parseErr } with
        | error e => exact ⟨e, by simp [Establish, hf, hnt]⟩
        | ok v =>
          rw [hnt] at h
          simp [Except.isOk, Except.toBool] at h

/-- Witness for C9 on a local address with no port separator: the
constructor fails and `Establish` registers nothing. -/
theorem c9_config_errors_witness :
    (NewTunnel "localhost" "user@host" "remote:22"
      { readErr := none, parseErr := none }).isOk = false ∧
    ∃ e, Establish [] 0 "n" "localhost" "user@host" "remote:22" none none
      = ([], 0, some e) := by
  have h := c9_config_errors "localhost" "user@host" "remote:22"
    { readErr := none, parseErr := none } [] 0 "n" none none
  have hbad : ¬ ':' ∈ "localhost".toList := by decide
  exact ⟨h.1.mpr (Or.inl hbad), h.2.2 (Or.inr (h.1.mpr (Or.inl hbad)))⟩

end Mario
